import Mathlib

/-!
Verification of the membership synchronizer in `sync_service.py` /
`aligner.py` (slack-to-google-workspace-group-aligner).

The development shallowly embeds the reconciliation logic: identities are
lowercased email strings, handles are opaque Slack user-id strings, Python
sets are lists of distinct elements, dictionaries are association lists or
`String → Option _` functions, and the external Slack API is an explicit
environment (`SlackEnv`) that determines the response of each mutating
call.  Every mutating call the program issues is collected in a trace of
`SlackCall` values so that "zero mutating calls are issued" is a statement
about the trace being empty.
-/

namespace SyncAligner

/-- One entry of the Slack user cache built by
`SlackSyncClient.populate_user_cache`: the `user_data` dictionary holding
the user id, resolved email and the boolean safety attributes. -/
structure UserData where
  id : String
  email : String
  is_admin : Bool
  is_owner : Bool
  is_bot : Bool
  is_app_user : Bool
  is_restricted : Bool
deriving DecidableEq

/-- Per-mapping counters and outcome, mirroring the `SyncStats` dataclass. -/
structure SyncStats where
  mapping_name : String
  added : Nat := 0
  removed : Nat := 0
  skipped : Nat := 0
  missing_accounts : List String := []
  errors : List String := []
  status : String := "Success"
deriving DecidableEq

/-- A Slack message block as assembled by `post_report`: the header block
or a section block carrying a markdown text. -/
inductive Block where
  | header (text : String)
  | sectionBlock (text : String)
deriving DecidableEq

/-- A mutating (or outbound) Slack API call issued by the program. -/
inductive SlackCall where
  | invite (channel : String) (users : List String)
  | kick (channel : String) (user : String)
  | postMessage (channel : String) (blocks : List Block)
deriving DecidableEq

/-- Possible responses of the `conversations.invite` endpoint for one chunk,
as distinguished by the `except SlackApiError` handler in `invite_users`. -/
inductive InviteResp where
  | ok
  | already_in_channel
  | apiError (msg : String)
deriving DecidableEq

/-- The behaviour of the external Slack API during one run: the response to
each invite chunk and the success of each single-user kick. -/
structure SlackEnv where
  inviteResp : List String → InviteResp
  kickOk : String → Bool

/-- Python `l[i:i+n]` chunking: `range(0, len(l), n)` slices of size `n`. -/
def chunksOf (n : Nat) (l : List String) : List (List String) :=
  if _h : n = 0 ∨ l.isEmpty then []
  else l.take n :: chunksOf n (l.drop n)
termination_by l.length
decreasing_by
  simp only [not_or, List.isEmpty_iff] at _h
  have h1 : 0 < n := Nat.pos_of_ne_zero _h.1
  have h2 : 0 < l.length := List.length_pos.mpr _h.2
  simp [List.length_drop]
  omega

/-- The first loop of `invite_users`: split the email list into the ids of
cached accounts (`user_ids_to_invite`, in order) and the uncached emails
(`missing_accounts`, in order). -/
def resolveEmails (cache : String → Option UserData) :
    List String → List String × List String
  | [] => ([], [])
  | e :: rest =>
    let p := resolveEmails cache rest
    match cache e with
    | some u => (u.id :: p.1, p.2)
    | none => (p.1, e :: p.2)

/-- The chunk loop of `invite_users`: in dry-run mode count every chunk and
issue nothing; otherwise issue the invite call and count the chunk only when
the response is success (both `already_in_channel` and other errors skip the
`added_count` increment; only the latter is logged as a failure). -/
def inviteChunks (env : SlackEnv) (channel_id : String) (dry_run : Bool) :
    List (List String) → Nat × List SlackCall
  | [] => (0, [])
  | c :: rest =>
    let p := inviteChunks env channel_id dry_run rest
    if dry_run then (c.length + p.1, p.2)
    else
      match env.inviteResp c with
      | InviteResp.ok => (c.length + p.1, SlackCall.invite channel_id c :: p.2)
      | _ => (p.1, SlackCall.invite channel_id c :: p.2)

/-- `SlackSyncClient.invite_users`: returns the added count, the missing
accounts, and the trace of invite calls issued.  Chunk size is 30. -/
def invite_users (env : SlackEnv) (cache : String → Option UserData)
    (channel_id : String) (emails : List String) (dry_run : Bool) :
    Nat × List String × List SlackCall :=
  ((inviteChunks env channel_id dry_run
      (chunksOf 30 (resolveEmails cache emails).1)).1,
    (resolveEmails cache emails).2,
    (inviteChunks env channel_id dry_run
      (chunksOf 30 (resolveEmails cache emails).1)).2)

/-- `SlackSyncClient.kick_user`: dry-run returns success with no call;
otherwise the call is issued and the environment decides success. -/
def kick_user (env : SlackEnv) (channel_id user_id : String) (dry_run : Bool) :
    Bool × List SlackCall :=
  if dry_run then (true, [])
  else (env.kickOk user_id, [SlackCall.kick channel_id user_id])

/-- Python `user_details.get(flag)` on `user_cache.get(email, {})`: a flag of
an absent record is false. -/
def detailFlag (d : Option UserData) (f : UserData → Bool) : Bool :=
  match d with
  | some u => f u
  | none => false

/-- What the removal loop decides for one candidate: skip (one of the three
safety filters matched, in their source order) or kick the resolved uid. -/
inductive RemoveAction where
  | skip
  | kickUid (uid : String)
deriving DecidableEq

/-- The rejection logic of the removal loop in `run_sync`, in source order:
protected list first, then admin/owner, then bot/app-user; only a candidate
surviving all three is kicked. -/
def removeAction (cache : String → Option UserData) (protected_ids : List String)
    (uid : String) (email : String) : RemoveAction :=
  if protected_ids.contains uid then RemoveAction.skip
  else if detailFlag (cache email) UserData.is_admin ||
      detailFlag (cache email) UserData.is_owner then
    RemoveAction.skip
  else if detailFlag (cache email) UserData.is_bot ||
      detailFlag (cache email) UserData.is_app_user then
    RemoveAction.skip
  else RemoveAction.kickUid uid

/-- Result of the removal loop: the skipped and removed counters, the error
messages appended for failed kicks, and the trace of kick calls issued. -/
structure RemoveResult where
  skipped : Nat
  removed : Nat
  errors : List String
  calls : List SlackCall
deriving DecidableEq

/-- The removal loop of `run_sync` (step E): for each candidate email apply
`removeAction`; a skip increments `skipped`, a kick increments `removed` on
success and appends a "Failed to kick" error on failure. -/
def removePhase (env : SlackEnv) (cache : String → Option UserData)
    (memberMap : String → String) (protected_ids : List String)
    (channel : String) (dry_run : Bool) : List String → RemoveResult
  | [] => ⟨0, 0, [], []⟩
  | email :: rest =>
    let r := removePhase env cache memberMap protected_ids channel dry_run rest
    let uid := memberMap email
    match removeAction cache protected_ids uid email with
    | RemoveAction.skip => ⟨r.skipped + 1, r.removed, r.errors, r.calls⟩
    | RemoveAction.kickUid u =>
      let k := kick_user env channel u dry_run
      if k.1 then ⟨r.skipped, r.removed + 1, r.errors, k.2 ++ r.calls⟩
      else ⟨r.skipped, r.removed, (("Failed to kick ") ++ email) :: r.errors,
            k.2 ++ r.calls⟩

/-- Python set difference on list-represented sets: the members of `a` that
are not members of `b` (used for `to_add = G - S` and
`candidate_remove = S - G` in both `run_sync` and `sync_group_to_channel`). -/
def setDiff (a b : List String) : List String :=
  a.filter (fun x => !(b.contains x))

/-- Dictionary assignment `m[k] = v` on an association list: any earlier
binding of `k` is replaced and `k` now maps to `v`. -/
def assocInsert (m : List (String × String)) (k v : String) :
    List (String × String) :=
  m.filter (fun p => p.1 ≠ k) ++ [(k, v)]

/-- The `slack_member_map` construction in `run_sync`: for each channel uid,
look it up in the roster `id_map`; when found with a non-empty email, record
`email -> uid`.  Uids with no resolvable email are dropped. -/
def buildMemberMap (id_map : String → Option UserData) (uids : List String) :
    List (String × String) :=
  uids.foldl
    (fun m uid =>
      match id_map uid with
      | some u => if u.email = "" then m else assocInsert m u.email uid
      | none => m)
    []

/-- Step C of `run_sync`: from the Google email set and the channel uid set,
compute `(to_add_emails, candidate_remove_emails)`. -/
def diffOf (id_map : String → Option UserData)
    (google_emails slack_uids : List String) : List String × List String :=
  let slack_emails := (buildMemberMap id_map slack_uids).map Prod.fst
  (setDiff google_emails slack_emails, setDiff slack_emails google_emails)

/-- One mapping entry of the configuration document. -/
structure Mapping where
  name : String
  google_group : String
  slack_channel : String
  protected_slack_users : List String
  enabled : Bool
deriving DecidableEq

/-- The `settings` section of the configuration.  `max_changes_per_run` is
optional because `run_sync` reads it with `.get(key, 50)`. -/
structure Settings where
  dry_run : Bool
  max_changes_per_run : Option Nat
  notify_channel_id : Option String

/-- The external world as seen while processing one mapping: the result of
the Google members fetch, the result of the channel members fetch, the
roster caches built by `populate_user_cache`, and the Slack mutation
environment.  A fetch result of `Except.error e` models the underlying
client raising an exception with message `e`. -/
structure MappingEnv where
  google_members : Except String (List String)
  channel_members : Except String (List String)
  user_cache : String → Option UserData
  id_map : String → Option UserData
  slack : SlackEnv

/-- Rendering of an optional number the way Python prints it inside the
abort message (`None` when the setting is absent). -/
def optNatRepr (o : Option Nat) : String :=
  match o with
  | some n => toString n
  | none => "None"

/-- The abort message built in the safety-check branch of `run_sync`. -/
def abortMsg (total : Nat) (limit : Option Nat) : String :=
  ("Aborting: ") ++ toString total ++ (" changes exceeds limit of ") ++
    optNatRepr limit

/-- Step D of `run_sync`: `invite_users` is called only when
`to_add_emails` is non-empty (an empty diff leaves the counters at their
initial zero values). -/
def inviteStep (settings : Settings) (user_cache : String → Option UserData)
    (slack : SlackEnv) (m : Mapping) (to_add : List String) :
    Nat × List String × List SlackCall :=
  if to_add.isEmpty then (0, [], [])
  else invite_users slack user_cache m.slack_channel to_add settings.dry_run

/-- Step E of `run_sync`: the removal loop over the candidate list, with
uids resolved through `slack_member_map`. -/
def removeStep (settings : Settings) (user_cache : String → Option UserData)
    (slack : SlackEnv) (m : Mapping) (smap : List (String × String))
    (cand : List String) : RemoveResult :=
  removePhase slack user_cache (fun e => ((smap.lookup e).getD ((""))))
    m.protected_slack_users m.slack_channel settings.dry_run cand

/-- Steps C-E of `run_sync` after both fetches succeeded: compute the diff,
apply the safety gate, and otherwise run the add and remove phases. -/
def reconcileOk (settings : Settings)
    (user_cache id_map : String → Option UserData) (slack : SlackEnv)
    (m : Mapping) (G S : List String) : SyncStats × List SlackCall :=
  if (diffOf id_map G S).1.length + (diffOf id_map G S).2.length >
      settings.max_changes_per_run.getD 50 then
    ({ mapping_name := m.name,
       errors := [abortMsg
         ((diffOf id_map G S).1.length + (diffOf id_map G S).2.length)
         settings.max_changes_per_run],
       status := ("Aborted") }, [])
  else
    ({ mapping_name := m.name,
       added := (inviteStep settings user_cache slack m (diffOf id_map G S).1).1,
       missing_accounts :=
         (inviteStep settings user_cache slack m (diffOf id_map G S).1).2.1,
       skipped := (removeStep settings user_cache slack m
         (buildMemberMap id_map S) (diffOf id_map G S).2).skipped,
       removed := (removeStep settings user_cache slack m
         (buildMemberMap id_map S) (diffOf id_map G S).2).removed,
       errors := (removeStep settings user_cache slack m
         (buildMemberMap id_map S) (diffOf id_map G S).2).errors },
     (inviteStep settings user_cache slack m (diffOf id_map G S).1).2.2 ++
       (removeStep settings user_cache slack m (buildMemberMap id_map S)
         (diffOf id_map G S).2).calls)

/-- The body of the per-mapping loop of `run_sync` (steps A-E plus the
`try/except` wrapper): returns the mapping's `SyncStats` and the trace of
mutating Slack calls issued for it.  The uncaught-exception points inside
the `try` block are the two fetches; every later Slack error is handled
locally inside `invite_users` / `kick_user`, so a raised fetch error yields
the stats accumulated so far (the freshly created record) with status
"Failed" and the exception message appended. -/
def process_mapping (settings : Settings) (env : MappingEnv) (m : Mapping) :
    SyncStats × List SlackCall :=
  match env.google_members with
  | Except.error e =>
    ({ mapping_name := m.name, errors := [e], status := ("Failed") }, [])
  | Except.ok google_emails =>
    match env.channel_members with
    | Except.error e =>
      ({ mapping_name := m.name, errors := [e], status := ("Failed") }, [])
    | Except.ok slack_uids =>
      reconcileOk settings env.user_cache env.id_map env.slack m
        google_emails slack_uids

/-- The status icon chosen by `post_report` for one mapping. -/
def statusIcon (status : String) : String :=
  if status = "Success" then ("✅") else ("⚠️")

/-- The separator `', '.join(stats.errors)` uses. -/
def errSep : String := ", "

/-- The first two lines of a mapping's summary block: name, then the icon
with the added/removed/skipped counters. -/
def renderBase (s : SyncStats) : String :=
  ("*") ++ s.mapping_name ++ ("*\n") ++ statusIcon s.status ++
    (" Added: ") ++ toString s.added ++ (" | Removed: ") ++
    toString s.removed ++ (" | Skipped: ") ++ toString s.skipped

/-- The summary block after the conditional missing-accounts line. -/
def renderWithMissing (s : SyncStats) : String :=
  if s.missing_accounts.isEmpty then renderBase s
  else renderBase s ++ ("\n❓ Missing Slack Accts: ") ++
    toString s.missing_accounts.length

/-- The markdown text assembled per mapping by `post_report`: name line,
icon/counters line, then a missing-accounts count when the list is
non-empty, then the error list joined with a comma and space. -/
def renderStatsText (s : SyncStats) : String :=
  if s.errors.isEmpty then renderWithMissing s
  else renderWithMissing s ++ ("\n⛔ Errors: ") ++
    String.intercalate errSep s.errors

/-- The header text of the report message. -/
def reportHeaderText : String :=
  String.singleton (Char.ofNat 0x1F504) ++ (" Membership Sync Report")

/-- `SlackSyncClient.post_report`: a no-op (no call) when the channel is
unset (`None` or empty, both falsy in Python) or the run is a dry run;
otherwise one `chat_postMessage` call whose blocks are the header followed
by one section per mapping.  The surrounding `try/except` swallows any
delivery failure, so the function has no error outcome. -/
def post_report (channel_id : Option String) (stats_list : List SyncStats)
    (dry_run : Bool) : List SlackCall :=
  if channel_id.getD ("") = ("") || dry_run then []
  else
    [SlackCall.postMessage (channel_id.getD (""))
      (Block.header reportHeaderText ::
        stats_list.map (fun s => Block.sectionBlock (renderStatsText s)))]

/-- One iteration of the mapping loop of `run_sync`: a disabled mapping is
skipped (`continue`), an enabled one appends its stats and contributes its
mutating calls. -/
def syncFold (settings : Settings) (envOf : Mapping → MappingEnv)
    (acc : List SyncStats × List SlackCall) (m : Mapping) :
    List SyncStats × List SlackCall :=
  if m.enabled then
    (acc.1 ++ [(process_mapping settings (envOf m) m).1],
      acc.2 ++ (process_mapping settings (envOf m) m).2)
  else acc

/-- The mapping loop plus final report of `run_sync`: disabled mappings are
skipped, each enabled mapping contributes its stats (appended in order) and
its mutating calls, and `post_report` runs once at the end on the full
stats list. -/
def run_sync (settings : Settings) (envOf : Mapping → MappingEnv)
    (mappings : List Mapping) : List SyncStats × List SlackCall :=
  ((mappings.foldl (syncFold settings envOf) ([], [])).1,
    (mappings.foldl (syncFold settings envOf) ([], [])).2 ++
      post_report settings.notify_channel_id
        (mappings.foldl (syncFold settings envOf) ([], [])).1 settings.dry_run)

/-! ### Helper lemmas -/

theorem mem_setDiff (x : String) (a b : List String) :
    x ∈ setDiff a b ↔ x ∈ a ∧ x ∉ b := by
  simp [setDiff, List.mem_filter]

theorem setDiff_eq_nil (a b : List String) (h : ∀ x ∈ a, x ∈ b) :
    setDiff a b = [] := by
  rw [setDiff, List.filter_eq_nil_iff]
  intro x hx
  simp [h x hx]

theorem chunksOf_sum_length (n : Nat) (hn : 0 < n) (l : List String) :
    ((chunksOf n l).map List.length).sum = l.length := by
  induction l using chunksOf.induct n with
  | case1 l h =>
    have : l = [] := by
      rcases h with h | h
      · omega
      · exact List.isEmpty_iff.mp h
    rw [chunksOf, dif_pos h, this]
    simp
  | case2 l h ih =>
    rw [chunksOf, dif_neg h]
    simp only [not_or, List.isEmpty_iff] at h
    have h2 : 0 < l.length := List.length_pos.mpr h.2
    simp only [List.map_cons, List.sum_cons, ih, List.length_take,
      List.length_drop]
    omega

theorem mem_of_mem_chunksOf (n : Nat) (l : List String) (c : List String)
    (x : String) (hc : c ∈ chunksOf n l) (hx : x ∈ c) : x ∈ l := by
  induction l using chunksOf.induct n with
  | case1 l h =>
    rw [chunksOf, dif_pos h] at hc
    simp at hc
  | case2 l h ih =>
    rw [chunksOf, dif_neg h] at hc
    rcases List.mem_cons.mp hc with hc | hc
    · exact List.mem_of_mem_take (hc ▸ hx)
    · exact List.mem_of_mem_drop (ih hc)

theorem resolveEmails_missing (cache : String → Option UserData)
    (l : List String) :
    (resolveEmails cache l).2 = l.filter (fun e => (cache e).isNone) := by
  induction l with
  | nil => rfl
  | cons e rest ih =>
    rw [resolveEmails]
    cases h : cache e <;> simp [h, ih]

theorem resolveEmails_ids (cache : String → Option UserData)
    (l : List String) :
    (resolveEmails cache l).1 = l.filterMap (fun e => (cache e).map UserData.id) := by
  induction l with
  | nil => rfl
  | cons e rest ih =>
    rw [resolveEmails]
    cases h : cache e <;> simp [h, ih]

theorem inviteChunks_dry (env : SlackEnv) (ch : String)
    (cs : List (List String)) :
    inviteChunks env ch true cs = ((cs.map List.length).sum, []) := by
  induction cs with
  | nil => rfl
  | cons c rest ih => simp [inviteChunks, ih]

theorem inviteChunks_real (env : SlackEnv) (ch : String)
    (cs : List (List String)) :
    (inviteChunks env ch false cs).1 =
      ((cs.filter (fun c => env.inviteResp c == InviteResp.ok)).map
        List.length).sum ∧
    (inviteChunks env ch false cs).2 = cs.map (SlackCall.invite ch) := by
  induction cs with
  | nil => exact ⟨rfl, rfl⟩
  | cons c rest ih =>
    simp only [inviteChunks]
    cases h : env.inviteResp c <;>
      simp [h, List.filter_cons, ih.1, ih.2]

theorem inviteChunks_le (env : SlackEnv) (ch : String) (dr : Bool)
    (cs : List (List String)) :
    (inviteChunks env ch dr cs).1 ≤ (cs.map List.length).sum := by
  induction cs with
  | nil => simp [inviteChunks]
  | cons c rest ih =>
    simp only [inviteChunks, List.map_cons, List.sum_cons]
    split
    · omega
    · split <;> omega

theorem inviteChunks_calls_mem (env : SlackEnv) (ch : String) (dr : Bool)
    (cs : List (List String)) (call : SlackCall)
    (h : call ∈ (inviteChunks env ch dr cs).2) :
    ∃ c, c ∈ cs ∧ call = SlackCall.invite ch c := by
  induction cs with
  | nil => simp [inviteChunks] at h
  | cons c rest ih =>
    simp only [inviteChunks] at h
    split at h
    · obtain ⟨c2, hc2, he⟩ := ih h
      exact ⟨c2, List.mem_cons_of_mem _ hc2, he⟩
    · split at h <;>
      · rcases List.mem_cons.mp h with h | h
        · exact ⟨c, List.mem_cons_self _ _, h⟩
        · obtain ⟨c2, hc2, he⟩ := ih h
          exact ⟨c2, List.mem_cons_of_mem _ hc2, he⟩

/-- The disjunction of the three safety filters of the removal loop. -/
def skipFilter (cache : String → Option UserData) (prot : List String)
    (uid email : String) : Bool :=
  prot.contains uid ||
    (detailFlag (cache email) UserData.is_admin ||
      detailFlag (cache email) UserData.is_owner) ||
    (detailFlag (cache email) UserData.is_bot ||
      detailFlag (cache email) UserData.is_app_user)

/-- Number of candidates the removal loop skips. -/
def skipCount (cache : String → Option UserData) (prot : List String)
    (mm : String → String) (cands : List String) : Nat :=
  (cands.filter (fun e => skipFilter cache prot (mm e) e)).length

/-- Number of candidates that survive all three safety filters. -/
def kickCount (cache : String → Option UserData) (prot : List String)
    (mm : String → String) (cands : List String) : Nat :=
  (cands.filter (fun e => !(skipFilter cache prot (mm e) e))).length

theorem removeAction_skip_iff (cache : String → Option UserData)
    (prot : List String) (uid email : String) :
    removeAction cache prot uid email = RemoveAction.skip ↔
      skipFilter cache prot uid email = true := by
  unfold removeAction skipFilter
  split
  · simp_all
  · split
    · simp_all
    · split <;> simp_all

theorem removeAction_cases (cache : String → Option UserData)
    (prot : List String) (uid email : String) :
    removeAction cache prot uid email = RemoveAction.skip ∨
      removeAction cache prot uid email = RemoveAction.kickUid uid := by
  unfold removeAction
  split
  · exact Or.inl rfl
  · split
    · exact Or.inl rfl
    · split
      · exact Or.inl rfl
      · exact Or.inr rfl

theorem removeAction_kick_iff (cache : String → Option UserData)
    (prot : List String) (uid email : String) :
    removeAction cache prot uid email = RemoveAction.kickUid uid ↔
      skipFilter cache prot uid email = false := by
  constructor
  · intro h
    cases hf : skipFilter cache prot uid email
    · rfl
    · rw [(removeAction_skip_iff cache prot uid email).mpr hf] at h
      exact RemoveAction.noConfusion h
  · intro h
    rcases removeAction_cases cache prot uid email with hs | hk
    · rw [removeAction_skip_iff] at hs
      rw [hs] at h
      exact Bool.noConfusion h
    · exact hk

theorem removePhase_skipped (env : SlackEnv)
    (cache : String → Option UserData) (mm : String → String)
    (prot : List String) (ch : String) (dr : Bool) (cands : List String) :
    (removePhase env cache mm prot ch dr cands).skipped =
      skipCount cache prot mm cands := by
  induction cands with
  | nil => rfl
  | cons e rest ih =>
    rw [removePhase]
    rcases h : removeAction cache prot (mm e) e with _ | u
    · have hs := (removeAction_skip_iff cache prot (mm e) e).mp h
      simp [skipCount, List.filter_cons, hs] at ih ⊢
      omega
    · have hk : skipFilter cache prot (mm e) e = false := by
        have := (removeAction_kick_iff cache prot (mm e) e).mpr
        by_contra hc
        have hs : skipFilter cache prot (mm e) e = true := by
          revert hc
          cases skipFilter cache prot (mm e) e <;> simp
        rw [(removeAction_skip_iff cache prot (mm e) e).mpr hs] at h
        exact RemoveAction.noConfusion h
      simp only [skipCount, List.filter_cons, hk, cond_false] at ih ⊢
      split <;> simp [ih]

theorem removePhase_accounting (env : SlackEnv)
    (cache : String → Option UserData) (mm : String → String)
    (prot : List String) (ch : String) (dr : Bool) (cands : List String) :
    (removePhase env cache mm prot ch dr cands).skipped +
      (removePhase env cache mm prot ch dr cands).removed +
      (removePhase env cache mm prot ch dr cands).errors.length =
      cands.length := by
  induction cands with
  | nil => rfl
  | cons e rest ih =>
    rw [removePhase]
    rcases removeAction cache prot (mm e) e with _ | u
    · simpa using by omega
    · dsimp only
      split <;> simp <;> omega

theorem removePhase_calls_mem (env : SlackEnv)
    (cache : String → Option UserData) (mm : String → String)
    (prot : List String) (ch : String) (dr : Bool) (cands : List String)
    (call : SlackCall)
    (h : call ∈ (removePhase env cache mm prot ch dr cands).calls) :
    ∃ e, e ∈ cands ∧
      removeAction cache prot (mm e) e = RemoveAction.kickUid (mm e) ∧
      call = SlackCall.kick ch (mm e) := by
  induction cands with
  | nil => simp [removePhase] at h
  | cons e rest ih =>
    rw [removePhase] at h
    rcases ha : removeAction cache prot (mm e) e with _ | u
    · rw [ha] at h
      obtain ⟨e2, h1, h2, h3⟩ := ih h
      exact ⟨e2, List.mem_cons_of_mem _ h1, h2, h3⟩
    · rw [ha] at h
      have hu : u = mm e := by
        unfold removeAction at ha
        split at ha
        · exact RemoveAction.noConfusion ha
        · split at ha
          · exact RemoveAction.noConfusion ha
          · split at ha
            · exact RemoveAction.noConfusion ha
            · cases ha
              rfl
      have hcase :
          call ∈ (kick_user env ch u dr).2 ∨
            call ∈ (removePhase env cache mm prot ch dr rest).calls := by
        dsimp only at h
        split at h <;> simpa using (List.mem_append.mp h)
      rcases hcase with hk | hr
      · unfold kick_user at hk
        split at hk
        · simp at hk
        · simp at hk
          exact ⟨e, List.mem_cons_self _ _, hu ▸ ha, hu ▸ hk⟩
      · obtain ⟨e2, h1, h2, h3⟩ := ih hr
        exact ⟨e2, List.mem_cons_of_mem _ h1, h2, h3⟩

theorem removePhase_dry (env : SlackEnv)
    (cache : String → Option UserData) (mm : String → String)
    (prot : List String) (ch : String) (cands : List String) :
    removePhase env cache mm prot ch true cands =
      ⟨skipCount cache prot mm cands, kickCount cache prot mm cands,
        [], []⟩ := by
  induction cands with
  | nil => rfl
  | cons e rest ih =>
    rw [removePhase, ih]
    rcases h : removeAction cache prot (mm e) e with _ | u
    · have hs := (removeAction_skip_iff cache prot (mm e) e).mp h
      simp [skipCount, kickCount, List.filter_cons, hs]
    · have hk : skipFilter cache prot (mm e) e = false := by
        by_contra hc
        have hs : skipFilter cache prot (mm e) e = true := by
          revert hc
          cases skipFilter cache prot (mm e) e <;> simp
        rw [(removeAction_skip_iff cache prot (mm e) e).mpr hs] at h
        exact RemoveAction.noConfusion h
      simp [skipCount, kickCount, List.filter_cons, hk, kick_user]

theorem removePhase_allOk (env : SlackEnv)
    (cache : String → Option UserData) (mm : String → String)
    (prot : List String) (ch : String) (cands : List String)
    (hk : ∀ u, env.kickOk u = true) :
    removePhase env cache mm prot ch false cands =
      ⟨skipCount cache prot mm cands, kickCount cache prot mm cands, [],
        (cands.filter (fun e => !(skipFilter cache prot (mm e) e))).map
          (fun e => SlackCall.kick ch (mm e))⟩ := by
  induction cands with
  | nil => rfl
  | cons e rest ih =>
    rw [removePhase, ih]
    rcases h : removeAction cache prot (mm e) e with _ | u
    · have hs := (removeAction_skip_iff cache prot (mm e) e).mp h
      simp [skipCount, kickCount, List.filter_cons, hs]
    · have hf : skipFilter cache prot (mm e) e = false := by
        by_contra hc
        have hs : skipFilter cache prot (mm e) e = true := by
          revert hc
          cases skipFilter cache prot (mm e) e <;> simp
        rw [(removeAction_skip_iff cache prot (mm e) e).mpr hs] at h
        exact RemoveAction.noConfusion h
      have hu : u = mm e := by
        rw [(removeAction_kick_iff cache prot (mm e) e).mpr hf] at h
        cases h
        rfl
      subst hu
      simp [skipCount, kickCount, List.filter_cons, hf, kick_user, hk]

theorem resolveEmails_ids_length (cache : String → Option UserData)
    (l : List String) :
    (resolveEmails cache l).1.length =
      (l.filter (fun e => (cache e).isSome)).length := by
  induction l with
  | nil => rfl
  | cons e rest ih =>
    rw [resolveEmails]
    cases h : cache e <;> simp [h, List.filter_cons, ih]

theorem invite_users_dry (env : SlackEnv) (cache : String → Option UserData)
    (ch : String) (emails : List String) :
    invite_users env cache ch emails true =
      (((chunksOf 30 (resolveEmails cache emails).1).map List.length).sum,
        (resolveEmails cache emails).2, []) := by
  simp [invite_users, inviteChunks_dry]

theorem invite_users_allOk (env : SlackEnv) (cache : String → Option UserData)
    (ch : String) (emails : List String)
    (h : ∀ c, env.inviteResp c = InviteResp.ok) :
    invite_users env cache ch emails false =
      (((chunksOf 30 (resolveEmails cache emails).1).map List.length).sum,
        (resolveEmails cache emails).2,
        (chunksOf 30 (resolveEmails cache emails).1).map
          (SlackCall.invite ch)) := by
  have hr := inviteChunks_real env ch (chunksOf 30 (resolveEmails cache emails).1)
  have hf : (chunksOf 30 (resolveEmails cache emails).1).filter
      (fun c => env.inviteResp c == InviteResp.ok) =
      chunksOf 30 (resolveEmails cache emails).1 := by
    apply List.filter_eq_self.mpr
    intro c _
    simp [h c]
  unfold invite_users
  rw [hf] at hr
  simp [hr.1, hr.2]

theorem invite_users_missing (env : SlackEnv)
    (cache : String → Option UserData) (ch : String) (emails : List String)
    (dr : Bool) :
    (invite_users env cache ch emails dr).2.1 =
      emails.filter (fun e => (cache e).isNone) := by
  simp [invite_users, resolveEmails_missing]

theorem invite_users_added_le (env : SlackEnv)
    (cache : String → Option UserData) (ch : String) (emails : List String)
    (dr : Bool) :
    (invite_users env cache ch emails dr).1 ≤
      (emails.filter (fun e => (cache e).isSome)).length := by
  have h1 := inviteChunks_le env ch dr (chunksOf 30 (resolveEmails cache emails).1)
  have h2 := chunksOf_sum_length 30 (by omega) (resolveEmails cache emails).1
  have h3 := resolveEmails_ids_length cache emails
  unfold invite_users
  dsimp only
  omega

theorem invite_users_calls (env : SlackEnv)
    (cache : String → Option UserData) (ch : String) (emails : List String)
    (dr : Bool) (call : SlackCall)
    (h : call ∈ (invite_users env cache ch emails dr).2.2) :
    ∃ c, call = SlackCall.invite ch c ∧
      ∀ u ∈ c, ∃ e d, e ∈ emails ∧ cache e = some d ∧ d.id = u := by
  unfold invite_users at h
  dsimp only at h
  obtain ⟨c, hc, he⟩ := inviteChunks_calls_mem env ch dr _ call h
  refine ⟨c, he, fun u hu => ?_⟩
  have hid : u ∈ (resolveEmails cache emails).1 :=
    mem_of_mem_chunksOf 30 _ c u hc hu
  rw [resolveEmails_ids] at hid
  obtain ⟨e, hem, hmap⟩ := List.mem_filterMap.mp hid
  obtain ⟨d, hd, hdu⟩ := Option.map_eq_some'.mp hmap
  exact ⟨e, d, hem, hd, hdu⟩

theorem process_mapping_ok (settings : Settings) (env : MappingEnv)
    (m : Mapping) (G S : List String)
    (hg : env.google_members = Except.ok G)
    (hc : env.channel_members = Except.ok S) :
    process_mapping settings env m =
      reconcileOk settings env.user_cache env.id_map env.slack m G S := by
  unfold process_mapping
  rw [hg, hc]

theorem mem_reconstruct (G S : List String) (x : String) :
    (x ∈ setDiff S (setDiff S G) ∨ x ∈ setDiff G S) ↔ x ∈ G := by
  simp only [mem_setDiff]
  constructor
  · tauto
  · intro hG
    by_cases hS : x ∈ S
    · exact Or.inl ⟨hS, fun hc => hc.2 hG⟩
    · exact Or.inr ⟨hG, hS⟩

/-! ### Claim theorems -/

/-- C3: for all source sets `G` and destination sets `S`, `to_add = G - S`
and `candidate_remove = S - G` are disjoint, and
`(S - candidate_remove) ∪ to_add = G` (stated as a membership equivalence),
with the union realised pointwise. -/
theorem diff_disjoint_reconstruct (G S : List String) (x : String) :
    (x ∈ setDiff G S → x ∉ setDiff S G) ∧
    ((x ∈ setDiff S (setDiff S G) ∨ x ∈ setDiff G S) ↔ x ∈ G) := by
  constructor
  · intro h1 h2
    rw [mem_setDiff] at h1 h2
    exact h2.2 h1.1
  · exact mem_reconstruct G S x

/-- C3 witness: the disjointness and reconstruction property evaluated on
the concrete example sets of the spec. -/
theorem diff_disjoint_reconstruct_witness :
    ((("a@x.com") ∈ setDiff [("a@x.com"), ("b@x.com")] [("b@x.com"), ("c@x.com")] →
        ("a@x.com") ∉ setDiff [("b@x.com"), ("c@x.com")] [("a@x.com"), ("b@x.com")]) ∧
      ((("a@x.com") ∈ setDiff [("b@x.com"), ("c@x.com")]
          (setDiff [("b@x.com"), ("c@x.com")] [("a@x.com"), ("b@x.com")]) ∨
        ("a@x.com") ∈ setDiff [("a@x.com"), ("b@x.com")] [("b@x.com"), ("c@x.com")]) ↔
        ("a@x.com") ∈ [("a@x.com"), ("b@x.com")])) :=
  diff_disjoint_reconstruct [("a@x.com"), ("b@x.com")] [("b@x.com"), ("c@x.com")] ("a@x.com")

/-- C1: when the computed total of changes exceeds the configured ceiling,
the mapping's status is "Aborted", the abort reason is recorded in its
error list, and the mapping issues zero mutating calls. -/
theorem ceiling_abort (settings : Settings) (env : MappingEnv) (m : Mapping)
    (G S : List String)
    (hg : env.google_members = Except.ok G)
    (hc : env.channel_members = Except.ok S)
    (hgt : (diffOf env.id_map G S).1.length + (diffOf env.id_map G S).2.length >
      settings.max_changes_per_run.getD 50) :
    (process_mapping settings env m).1.status = ("Aborted") ∧
    abortMsg
        ((diffOf env.id_map G S).1.length + (diffOf env.id_map G S).2.length)
        settings.max_changes_per_run ∈ (process_mapping settings env m).1.errors ∧
    (process_mapping settings env m).2 = [] := by
  rw [process_mapping_ok settings env m G S hg hc]
  unfold reconcileOk
  rw [if_pos hgt]
  exact ⟨rfl, by simp, rfl⟩

/-- C1 witness: a run whose diff has one addition against a ceiling of zero
aborts with the recorded reason and an empty mutation trace. -/
theorem ceiling_abort_witness :
    (process_mapping ⟨false, some 0, none⟩
        ⟨Except.ok [("a@x.com")], Except.ok [], fun _ => none, fun _ => none,
          ⟨fun _ => InviteResp.ok, fun _ => true⟩⟩
        ⟨("m1"), ("g@x.com"), ("C1"), [], true⟩).1.status = ("Aborted") ∧
    abortMsg
        ((diffOf (fun _ => none) [("a@x.com")] []).1.length +
          (diffOf (fun _ => none) [("a@x.com")] []).2.length) (some 0) ∈
      (process_mapping ⟨false, some 0, none⟩
        ⟨Except.ok [("a@x.com")], Except.ok [], fun _ => none, fun _ => none,
          ⟨fun _ => InviteResp.ok, fun _ => true⟩⟩
        ⟨("m1"), ("g@x.com"), ("C1"), [], true⟩).1.errors ∧
    (process_mapping ⟨false, some 0, none⟩
        ⟨Except.ok [("a@x.com")], Except.ok [], fun _ => none, fun _ => none,
          ⟨fun _ => InviteResp.ok, fun _ => true⟩⟩
        ⟨("m1"), ("g@x.com"), ("C1"), [], true⟩).2 = [] :=
  ceiling_abort ⟨false, some 0, none⟩
    ⟨Except.ok [("a@x.com")], Except.ok [], fun _ => none, fun _ => none,
      ⟨fun _ => InviteResp.ok, fun _ => true⟩⟩
    ⟨("m1"), ("g@x.com"), ("C1"), [], true⟩
    [("a@x.com")] [] rfl rfl (by decide)

/-- C10: when both fetches succeed and the ceiling does not trigger, the
final stats satisfy `skipped + removed + |errors| = |candidate_remove|`:
each removal candidate is accounted for exactly once as skipped, removed,
or a recorded kick failure (the error list of a completed mapping contains
exactly the kick-failure entries). -/
theorem removal_accounting (settings : Settings) (env : MappingEnv)
    (m : Mapping) (G S : List String)
    (hg : env.google_members = Except.ok G)
    (hc : env.channel_members = Except.ok S)
    (hle : (diffOf env.id_map G S).1.length + (diffOf env.id_map G S).2.length ≤
      settings.max_changes_per_run.getD 50) :
    (process_mapping settings env m).1.skipped +
      (process_mapping settings env m).1.removed +
      (process_mapping settings env m).1.errors.length =
      (diffOf env.id_map G S).2.length := by
  rw [process_mapping_ok settings env m G S hg hc]
  unfold reconcileOk
  rw [if_neg (by omega)]
  unfold removeStep
  exact removePhase_accounting _ _ _ _ _ _ _

/-- C10 witness: a concrete mapping with one protected candidate, one
kickable candidate whose kick fails, and one successfully removed
candidate: 1 + 1 + 1 accounts for all three candidates. -/
theorem removal_accounting_witness :
    (process_mapping ⟨false, none, none⟩
        ⟨Except.ok [], Except.ok [("U1"), ("U2"), ("U3")],
          (fun e =>
            if e = ("a@x.com") then some ⟨("U1"), ("a@x.com"), false, false, false, false, false⟩
            else if e = ("b@x.com") then some ⟨("U2"), ("b@x.com"), false, false, false, false, false⟩
            else if e = ("c@x.com") then some ⟨("U3"), ("c@x.com"), false, false, false, false, false⟩
            else none),
          (fun u =>
            if u = ("U1") then some ⟨("U1"), ("a@x.com"), false, false, false, false, false⟩
            else if u = ("U2") then some ⟨("U2"), ("b@x.com"), false, false, false, false, false⟩
            else if u = ("U3") then some ⟨("U3"), ("c@x.com"), false, false, false, false, false⟩
            else none),
          ⟨fun _ => InviteResp.ok, fun u => u = ("U3")⟩⟩
        ⟨("m1"), ("g@x.com"), ("C1"), [("U1")], true⟩).1.skipped +
      (process_mapping ⟨false, none, none⟩
        ⟨Except.ok [], Except.ok [("U1"), ("U2"), ("U3")],
          (fun e =>
            if e = ("a@x.com") then some ⟨("U1"), ("a@x.com"), false, false, false, false, false⟩
            else if e = ("b@x.com") then some ⟨("U2"), ("b@x.com"), false, false, false, false, false⟩
            else if e = ("c@x.com") then some ⟨("U3"), ("c@x.com"), false, false, false, false, false⟩
            else none),
          (fun u =>
            if u = ("U1") then some ⟨("U1"), ("a@x.com"), false, false, false, false, false⟩
            else if u = ("U2") then some ⟨("U2"), ("b@x.com"), false, false, false, false, false⟩
            else if u = ("U3") then some ⟨("U3"), ("c@x.com"), false, false, false, false, false⟩
            else none),
          ⟨fun _ => InviteResp.ok, fun u => u = ("U3")⟩⟩
        ⟨("m1"), ("g@x.com"), ("C1"), [("U1")], true⟩).1.removed +
      (process_mapping ⟨false, none, none⟩
        ⟨Except.ok [], Except.ok [("U1"), ("U2"), ("U3")],
          (fun e =>
            if e = ("a@x.com") then some ⟨("U1"), ("a@x.com"), false, false, false, false, false⟩
            else if e = ("b@x.com") then some ⟨("U2"), ("b@x.com"), false, false, false, false, false⟩
            else if e = ("c@x.com") then some ⟨("U3"), ("c@x.com"), false, false, false, false, false⟩
            else none),
          (fun u =>
            if u = ("U1") then some ⟨("U1"), ("a@x.com"), false, false, false, false, false⟩
            else if u = ("U2") then some ⟨("U2"), ("b@x.com"), false, false, false, false, false⟩
            else if u = ("U3") then some ⟨("U3"), ("c@x.com"), false, false, false, false, false⟩
            else none),
          ⟨fun _ => InviteResp.ok, fun u => u = ("U3")⟩⟩
        ⟨("m1"), ("g@x.com"), ("C1"), [("U1")], true⟩).1.errors.length =
      (diffOf
        (fun u =>
          if u = ("U1") then some ⟨("U1"), ("a@x.com"), false, false, false, false, false⟩
          else if u = ("U2") then some ⟨("U2"), ("b@x.com"), false, false, false, false, false⟩
          else if u = ("U3") then some ⟨("U3"), ("c@x.com"), false, false, false, false, false⟩
          else none)
        [] [("U1"), ("U2"), ("U3")]).2.length :=
  removal_accounting ⟨false, none, none⟩
    ⟨Except.ok [], Except.ok [("U1"), ("U2"), ("U3")],
      (fun e =>
        if e = ("a@x.com") then some ⟨("U1"), ("a@x.com"), false, false, false, false, false⟩
        else if e = ("b@x.com") then some ⟨("U2"), ("b@x.com"), false, false, false, false, false⟩
        else if e = ("c@x.com") then some ⟨("U3"), ("c@x.com"), false, false, false, false, false⟩
        else none),
      (fun u =>
        if u = ("U1") then some ⟨("U1"), ("a@x.com"), false, false, false, false, false⟩
        else if u = ("U2") then some ⟨("U2"), ("b@x.com"), false, false, false, false, false⟩
        else if u = ("U3") then some ⟨("U3"), ("c@x.com"), false, false, false, false, false⟩
        else none),
      ⟨fun _ => InviteResp.ok, fun u => u = ("U3")⟩⟩
    ⟨("m1"), ("g@x.com"), ("C1"), [("U1")], true⟩
    [] [("U1"), ("U2"), ("U3")] rfl rfl (by decide)

/-- C2: the three safety filters of the removal loop are applied in the
source's fixed order with short-circuiting; in particular a handle in the
protected set is skipped no matter what its cached flags say, a candidate
is skipped exactly when one of protected/admin/owner/bot/app-user holds,
each skip contributes to the `skipped` counter and no removal, and every
kick call in the trace comes from a candidate that survived all three
filters. -/
theorem removal_filter_order (env : SlackEnv)
    (cache : String → Option UserData) (mm : String → String)
    (prot : List String) (ch : String) (dr : Bool) (cands : List String)
    (email : String) (hprot : prot.contains (mm email) = true) :
    removeAction cache prot (mm email) email = RemoveAction.skip ∧
    (∀ e, removeAction cache prot (mm e) e = RemoveAction.skip ↔
      (prot.contains (mm e) = true ∨
        detailFlag (cache e) UserData.is_admin = true ∨
        detailFlag (cache e) UserData.is_owner = true ∨
        detailFlag (cache e) UserData.is_bot = true ∨
        detailFlag (cache e) UserData.is_app_user = true)) ∧
    (removePhase env cache mm prot ch dr cands).skipped =
      skipCount cache prot mm cands ∧
    (∀ call ∈ (removePhase env cache mm prot ch dr cands).calls,
      ∃ e, e ∈ cands ∧
        removeAction cache prot (mm e) e = RemoveAction.kickUid (mm e) ∧
        call = SlackCall.kick ch (mm e)) := by
  refine ⟨?_, ?_, removePhase_skipped env cache mm prot ch dr cands,
    fun call hc => removePhase_calls_mem env cache mm prot ch dr cands call hc⟩
  · rw [removeAction_skip_iff]
    unfold skipFilter
    rw [hprot]
    simp
  · intro e
    rw [removeAction_skip_iff]
    simp only [skipFilter, Bool.or_eq_true]
    tauto

/-- C2 witness: a protected handle whose cached record has none of the
admin/owner/bot/app flags is still skipped. -/
theorem removal_filter_order_witness :
    removeAction
      (fun e => if e = ("p@x.com") then
        some ⟨("U1"), ("p@x.com"), false, false, false, false, false⟩
      else none)
      [("U1")] ("U1") ("p@x.com") = RemoveAction.skip :=
  (removal_filter_order ⟨fun _ => InviteResp.ok, fun _ => true⟩
    (fun e => if e = ("p@x.com") then
      some ⟨("U1"), ("p@x.com"), false, false, false, false, false⟩
    else none)
    (fun _ => ("U1")) [("U1")] ("C1") false [("p@x.com")] ("p@x.com")
    (by decide)).1

/-- C4: an email in `to_add` with no entry in the identity cache is
reported in `missing_accounts`, the added count can only come from cached
emails (so the missing one is excluded from it), and every invite call
issued carries only user ids resolved from cached emails, so no invite is
attempted for the missing account. -/
theorem missing_account_handling (env : SlackEnv)
    (cache : String → Option UserData) (ch : String) (emails : List String)
    (dr : Bool) (e : String) (he : e ∈ emails) (hn : cache e = none) :
    e ∈ (invite_users env cache ch emails dr).2.1 ∧
    (invite_users env cache ch emails dr).1 ≤
      (emails.filter (fun x => (cache x).isSome)).length ∧
    (∀ call ∈ (invite_users env cache ch emails dr).2.2, ∃ c,
      call = SlackCall.invite ch c ∧
      ∀ u ∈ c, ∃ e2 d, e2 ∈ emails ∧ cache e2 = some d ∧ d.id = u) := by
  refine ⟨?_, invite_users_added_le env cache ch emails dr,
    fun call hc => invite_users_calls env cache ch emails dr call hc⟩
  rw [invite_users_missing]
  rw [List.mem_filter]
  exact ⟨he, by simp [hn]⟩

/-- C4 witness: an email with no Slack account lands in the missing list of
a concrete invite run. -/
theorem missing_account_handling_witness :
    ("m@x.com") ∈ (invite_users ⟨fun _ => InviteResp.ok, fun _ => true⟩
      (fun _ => none) ("C1") [("m@x.com")] false).2.1 :=
  (missing_account_handling ⟨fun _ => InviteResp.ok, fun _ => true⟩
    (fun _ => none) ("C1") [("m@x.com")] false ("m@x.com")
    (by decide) rfl).1

theorem inviteStep_counts (s1 s2 : Settings)
    (user_cache : String → Option UserData) (slack : SlackEnv) (m : Mapping)
    (l : List String) (hd1 : s1.dry_run = true) (hd2 : s2.dry_run = false)
    (hi : ∀ c, slack.inviteResp c = InviteResp.ok) :
    (inviteStep s1 user_cache slack m l).1 =
      (inviteStep s2 user_cache slack m l).1 ∧
    (inviteStep s1 user_cache slack m l).2.1 =
      (inviteStep s2 user_cache slack m l).2.1 ∧
    (inviteStep s1 user_cache slack m l).2.2 = [] := by
  unfold inviteStep
  by_cases hl : l.isEmpty
  · rw [if_pos hl, if_pos hl]
    exact ⟨rfl, rfl, rfl⟩
  · rw [if_neg hl, if_neg hl, hd1, hd2, invite_users_dry,
      invite_users_allOk slack user_cache m.slack_channel l hi]
    exact ⟨rfl, rfl, rfl⟩

theorem removeStep_counts (s1 s2 : Settings)
    (user_cache : String → Option UserData) (slack : SlackEnv) (m : Mapping)
    (smap : List (String × String)) (cand : List String)
    (hd1 : s1.dry_run = true) (hd2 : s2.dry_run = false)
    (hk : ∀ u, slack.kickOk u = true) :
    (removeStep s1 user_cache slack m smap cand).skipped =
      (removeStep s2 user_cache slack m smap cand).skipped ∧
    (removeStep s1 user_cache slack m smap cand).removed =
      (removeStep s2 user_cache slack m smap cand).removed ∧
    (removeStep s1 user_cache slack m smap cand).calls = [] := by
  unfold removeStep
  rw [hd1, hd2, removePhase_dry, removePhase_allOk _ _ _ _ _ _ hk]
  exact ⟨rfl, rfl, rfl⟩

/-- C5: with an environment in which every mutating call would succeed, a
dry run produces the same added/removed/skipped counts and the same
missing-accounts list as the real run, while issuing zero mutating calls;
and `kick_user` under dry run returns success without issuing a call. -/
theorem dry_run_equivalence (settings : Settings) (env : MappingEnv)
    (m : Mapping)
    (hi : ∀ c, env.slack.inviteResp c = InviteResp.ok)
    (hk : ∀ u, env.slack.kickOk u = true) :
    (process_mapping { settings with dry_run := true } env m).1.added =
      (process_mapping { settings with dry_run := false } env m).1.added ∧
    (process_mapping { settings with dry_run := true } env m).1.removed =
      (process_mapping { settings with dry_run := false } env m).1.removed ∧
    (process_mapping { settings with dry_run := true } env m).1.skipped =
      (process_mapping { settings with dry_run := false } env m).1.skipped ∧
    (process_mapping { settings with dry_run := true } env m).2 = [] ∧
    (∀ ch u, kick_user env.slack ch u true = (true, [])) := by
  cases hg : env.google_members with
  | error e =>
    refine ⟨?_, ?_, ?_, ?_, fun ch u => rfl⟩ <;> simp [process_mapping, hg]
  | ok G =>
    cases hc : env.channel_members with
    | error e =>
      refine ⟨?_, ?_, ?_, ?_, fun ch u => rfl⟩ <;> simp [process_mapping, hg, hc]
    | ok S =>
      rw [process_mapping_ok { settings with dry_run := true } env m G S hg hc,
        process_mapping_ok { settings with dry_run := false } env m G S hg hc]
      unfold reconcileOk
      by_cases hgate :
          (diffOf env.id_map G S).1.length + (diffOf env.id_map G S).2.length >
            settings.max_changes_per_run.getD 50
      · rw [if_pos hgate, if_pos hgate]
        exact ⟨rfl, rfl, rfl, rfl, fun ch u => rfl⟩
      · rw [if_neg hgate, if_neg hgate]
        obtain ⟨hia, him, hic⟩ := inviteStep_counts
          { settings with dry_run := true } { settings with dry_run := false }
          env.user_cache env.slack m (diffOf env.id_map G S).1 rfl rfl hi
        obtain ⟨hrs, hrr, hrc⟩ := removeStep_counts
          { settings with dry_run := true } { settings with dry_run := false }
          env.user_cache env.slack m (buildMemberMap env.id_map S)
          (diffOf env.id_map G S).2 rfl rfl hk
        exact ⟨hia, hrr, hrs, by simp [hic, hrc], fun ch u => rfl⟩

/-- C5 witness: on the spec's example scenario with an all-success
environment, dry run and real run report the same counts and the dry run
issues no calls. -/
theorem dry_run_equivalence_witness :
    (process_mapping ⟨true, none, none⟩
        ⟨Except.ok [("a@x.com")], Except.ok [], fun _ => none, fun _ => none,
          ⟨fun _ => InviteResp.ok, fun _ => true⟩⟩
        ⟨("m1"), ("g@x.com"), ("C1"), [], true⟩).1.added =
      (process_mapping ⟨false, none, none⟩
        ⟨Except.ok [("a@x.com")], Except.ok [], fun _ => none, fun _ => none,
          ⟨fun _ => InviteResp.ok, fun _ => true⟩⟩
        ⟨("m1"), ("g@x.com"), ("C1"), [], true⟩).1.added ∧
    (process_mapping ⟨true, none, none⟩
        ⟨Except.ok [("a@x.com")], Except.ok [], fun _ => none, fun _ => none,
          ⟨fun _ => InviteResp.ok, fun _ => true⟩⟩
        ⟨("m1"), ("g@x.com"), ("C1"), [], true⟩).1.removed =
      (process_mapping ⟨false, none, none⟩
        ⟨Except.ok [("a@x.com")], Except.ok [], fun _ => none, fun _ => none,
          ⟨fun _ => InviteResp.ok, fun _ => true⟩⟩
        ⟨("m1"), ("g@x.com"), ("C1"), [], true⟩).1.removed ∧
    (process_mapping ⟨true, none, none⟩
        ⟨Except.ok [("a@x.com")], Except.ok [], fun _ => none, fun _ => none,
          ⟨fun _ => InviteResp.ok, fun _ => true⟩⟩
        ⟨("m1"), ("g@x.com"), ("C1"), [], true⟩).1.skipped =
      (process_mapping ⟨false, none, none⟩
        ⟨Except.ok [("a@x.com")], Except.ok [], fun _ => none, fun _ => none,
          ⟨fun _ => InviteResp.ok, fun _ => true⟩⟩
        ⟨("m1"), ("g@x.com"), ("C1"), [], true⟩).1.skipped ∧
    (process_mapping ⟨true, none, none⟩
        ⟨Except.ok [("a@x.com")], Except.ok [], fun _ => none, fun _ => none,
          ⟨fun _ => InviteResp.ok, fun _ => true⟩⟩
        ⟨("m1"), ("g@x.com"), ("C1"), [], true⟩).2 = [] ∧
    (∀ ch u, kick_user ⟨fun _ => InviteResp.ok, fun _ => true⟩ ch u true =
      (true, [])) :=
  dry_run_equivalence ⟨false, none, none⟩
    ⟨Except.ok [("a@x.com")], Except.ok [], fun _ => none, fun _ => none,
      ⟨fun _ => InviteResp.ok, fun _ => true⟩⟩
    ⟨("m1"), ("g@x.com"), ("C1"), [], true⟩
    (fun _ => rfl) (fun _ => rfl)

/-- The uncaught-error situations inside the per-mapping `try` block: the
Google members fetch raised `e`, or it succeeded and the Slack channel
members fetch raised `e`. -/
def fetchError (env : MappingEnv) (e : String) : Prop :=
  env.google_members = Except.error e ∨
    (∃ G, env.google_members = Except.ok G ∧
      env.channel_members = Except.error e)

theorem syncFold_acc_mem (settings : Settings) (envOf : Mapping → MappingEnv)
    (ms : List Mapping) (acc : List SyncStats × List SlackCall)
    (x : SyncStats) (hx : x ∈ acc.1) :
    x ∈ (ms.foldl (syncFold settings envOf) acc).1 := by
  induction ms generalizing acc with
  | nil => exact hx
  | cons m0 rest ih =>
    rw [List.foldl_cons]
    apply ih
    unfold syncFold
    split
    · exact List.mem_append_left _ hx
    · exact hx

theorem mem_foldl_syncFold (settings : Settings)
    (envOf : Mapping → MappingEnv) (ms : List Mapping) (m : Mapping)
    (acc : List SyncStats × List SlackCall) (hm : m ∈ ms)
    (hen : m.enabled = true) :
    (process_mapping settings (envOf m) m).1 ∈
      (ms.foldl (syncFold settings envOf) acc).1 := by
  induction ms generalizing acc with
  | nil => cases hm
  | cons m0 rest ih =>
    rw [List.foldl_cons]
    rcases List.mem_cons.mp hm with he | he
    · subst he
      apply syncFold_acc_mem
      unfold syncFold
      rw [if_pos hen]
      exact List.mem_append_right _ (List.mem_singleton.mpr rfl)
    · exact ih (syncFold settings envOf acc m0) he

/-- C7: when a fetch inside steps 1-6 raises, the mapping's status is
"Failed", the exception message is recorded in its error list, and the
stats record accumulated up to the failure still appears in the final
stats list of the whole run. -/
theorem failed_mapping_partial_stats (settings : Settings)
    (envOf : Mapping → MappingEnv) (ms : List Mapping) (m : Mapping)
    (e : String) (hm : m ∈ ms) (hen : m.enabled = true)
    (hf : fetchError (envOf m) e) :
    (process_mapping settings (envOf m) m).1.status = ("Failed") ∧
    e ∈ (process_mapping settings (envOf m) m).1.errors ∧
    (process_mapping settings (envOf m) m).1 ∈
      (run_sync settings envOf ms).1 := by
  refine ⟨?_, ?_, ?_⟩
  · rcases hf with h | ⟨G, hG, h⟩
    · simp [process_mapping, h]
    · simp [process_mapping, hG, h]
  · rcases hf with h | ⟨G, hG, h⟩
    · simp [process_mapping, h]
    · simp [process_mapping, hG, h]
  · unfold run_sync
    exact mem_foldl_syncFold settings envOf ms m ([], []) hm hen

/-- C7 witness: a run whose single enabled mapping hits a Google fetch
error yields a "Failed" stats record, with the message recorded, inside
the final stats list. -/
theorem failed_mapping_partial_stats_witness :
    (process_mapping ⟨false, none, none⟩
        ⟨Except.error ("boom"), Except.ok [], fun _ => none, fun _ => none,
          ⟨fun _ => InviteResp.ok, fun _ => true⟩⟩
        ⟨("m1"), ("g@x.com"), ("C1"), [], true⟩).1.status = ("Failed") ∧
    ("boom") ∈ (process_mapping ⟨false, none, none⟩
        ⟨Except.error ("boom"), Except.ok [], fun _ => none, fun _ => none,
          ⟨fun _ => InviteResp.ok, fun _ => true⟩⟩
        ⟨("m1"), ("g@x.com"), ("C1"), [], true⟩).1.errors ∧
    (process_mapping ⟨false, none, none⟩
        ⟨Except.error ("boom"), Except.ok [], fun _ => none, fun _ => none,
          ⟨fun _ => InviteResp.ok, fun _ => true⟩⟩
        ⟨("m1"), ("g@x.com"), ("C1"), [], true⟩).1 ∈
      (run_sync ⟨false, none, none⟩
        (fun _ => ⟨Except.error ("boom"), Except.ok [], fun _ => none,
          fun _ => none, ⟨fun _ => InviteResp.ok, fun _ => true⟩⟩)
        [⟨("m1"), ("g@x.com"), ("C1"), [], true⟩]).1 :=
  failed_mapping_partial_stats ⟨false, none, none⟩
    (fun _ => ⟨Except.error ("boom"), Except.ok [], fun _ => none,
      fun _ => none, ⟨fun _ => InviteResp.ok, fun _ => true⟩⟩)
    [⟨("m1"), ("g@x.com"), ("C1"), [], true⟩]
    ⟨("m1"), ("g@x.com"), ("C1"), [], true⟩ ("boom")
    (List.mem_singleton.mpr rfl) rfl (Or.inl rfl)

/-- C8 counterexample: a single invite chunk answered with the known
`already_in_channel` response is swallowed (no error is recorded anywhere,
the call trace shows the attempt), but its count is nevertheless excluded
from the returned added count — `added = 0` even though no failure other
than `already_in_channel` occurred, refuting the claim that only chunks
with some other per-chunk failure are excluded. -/
theorem already_in_channel_excluded :
    invite_users ⟨fun _ => InviteResp.already_in_channel, fun _ => true⟩
      (fun e => if e = ("a@x.com") then
        some ⟨("U1"), ("a@x.com"), false, false, false, false, false⟩
      else none)
      ("C1") [("a@x.com")] false =
      (0, [], [SlackCall.invite ("C1") [("U1")]]) := by
  have h0 : resolveEmails
      (fun e => if e = ("a@x.com") then
        some ⟨("U1"), ("a@x.com"), false, false, false, false, false⟩
      else none) [("a@x.com")] = ([("U1")], []) := by decide
  have h1 : chunksOf 30 [("U1")] = [[("U1")]] := by
    rw [chunksOf, dif_neg (by decide), chunksOf, dif_pos (by decide)]
    decide
  simp only [invite_users, h0, h1]
  decide

/-- C8 amended: an `already_in_channel` chunk is swallowed — the function
records no error (its result has no error component at all) and continues
with the remaining chunks, every chunk being attempted — but its count is
excluded from the added count exactly like a chunk failing with any other
error: the added count sums precisely the chunks whose invite call
succeeded. -/
theorem invite_chunk_accounting (env : SlackEnv)
    (cache : String → Option UserData) (ch : String) (emails : List String) :
    (invite_users env cache ch emails false).1 =
      (((chunksOf 30 (resolveEmails cache emails).1).filter
        (fun c => env.inviteResp c == InviteResp.ok)).map List.length).sum ∧
    (invite_users env cache ch emails false).2.2 =
      (chunksOf 30 (resolveEmails cache emails).1).map
        (SlackCall.invite ch) := by
  have h := inviteChunks_real env ch (chunksOf 30 (resolveEmails cache emails).1)
  exact ⟨h.1, h.2⟩

/-- C9 counterexample: the error list in a mapping's summary block is
joined with a comma and a space, not with semicolons: on a stats record
with errors `e1, e2` the rendered text ends in "e1, e2" and differs from
the semicolon-joined rendering the claim describes. -/
theorem report_comma_join :
    renderStatsText ⟨("M"), 1, 2, 3, [], [("e1"), ("e2")], ("Success")⟩ =
      ("*M*\n✅ Added: 1 | Removed: 2 | Skipped: 3\n⛔ Errors: e1, e2") ∧
    renderStatsText ⟨("M"), 1, 2, 3, [], [("e1"), ("e2")], ("Success")⟩ ≠
      ("*M*\n✅ Added: 1 | Removed: 2 | Skipped: 3\n⛔ Errors: e1; e2") := by
  constructor
  · decide
  · decide

/-- C9 amended: publishing is a no-op when the notify target is unset
(absent or empty, both falsy) or the run is a dry run; otherwise exactly
one message is posted whose blocks are the header followed by one section
per mapping rendered by `renderStatsText` (name, counts, status icon, a
missing-accounts count when non-empty, and the error list joined with
comma-space, not semicolons); `post_report` has no failure outcome, so a
delivery error never escalates. -/
theorem post_report_behaviour (cid : Option String) (sl : List SyncStats)
    (dr : Bool) (s : SyncStats) :
    ((cid.getD ("") = ("") ∨ dr = true) → post_report cid sl dr = []) ∧
    (cid.getD ("") ≠ ("") → dr = false →
      post_report cid sl dr =
        [SlackCall.postMessage (cid.getD (""))
          (Block.header reportHeaderText ::
            sl.map (fun t => Block.sectionBlock (renderStatsText t)))]) ∧
    (s.errors ≠ [] → renderStatsText s =
      renderWithMissing s ++ ("\n⛔ Errors: ") ++
        String.intercalate errSep s.errors) ∧
    (s.missing_accounts ≠ [] → renderWithMissing s =
      renderBase s ++ ("\n❓ Missing Slack Accts: ") ++
        toString s.missing_accounts.length) := by
  refine ⟨?_, ?_, ?_, ?_⟩
  · intro h
    unfold post_report
    rcases h with h | h
    · rw [if_pos]
      simp [h]
    · rw [if_pos]
      simp [h]
  · intro h1 h2
    unfold post_report
    rw [if_neg]
    simp [h1, h2]
  · intro he
    unfold renderStatsText
    rw [if_neg]
    simp [he]
  · intro hm
    unfold renderWithMissing
    rw [if_neg]
    simp [hm]

/-- C9 witness for the amended statement: with no notify channel the
report run issues no call. -/
theorem post_report_behaviour_witness :
    post_report none [] false = [] :=
  (post_report_behaviour none [] false
      ⟨("M"), 0, 0, 0, [], [], ("Success")⟩).1 (Or.inl rfl)

/-- C6 counterexample: reconciliation is not idempotent in the claimed
unconditional sense.  With `G = {}` and a destination whose only member is
protected, the first run completes with status "Success" and issues zero
mutating calls, so the destination set is unchanged; yet the diff any
second run would compute still has `candidate_remove ≠ ∅` (the protected
member is skipped again on every run, never converging to an empty diff). -/
theorem idempotence_fails_with_skips :
    (process_mapping ⟨false, none, none⟩
        ⟨Except.ok [], Except.ok [("U1")],
          (fun e => if e = ("p@x.com") then
            some ⟨("U1"), ("p@x.com"), false, false, false, false, false⟩
          else none),
          (fun u => if u = ("U1") then
            some ⟨("U1"), ("p@x.com"), false, false, false, false, false⟩
          else none),
          ⟨fun _ => InviteResp.ok, fun _ => true⟩⟩
        ⟨("m1"), ("g@x.com"), ("C1"), [("U1")], true⟩).2 = [] ∧
    (process_mapping ⟨false, none, none⟩
        ⟨Except.ok [], Except.ok [("U1")],
          (fun e => if e = ("p@x.com") then
            some ⟨("U1"), ("p@x.com"), false, false, false, false, false⟩
          else none),
          (fun u => if u = ("U1") then
            some ⟨("U1"), ("p@x.com"), false, false, false, false, false⟩
          else none),
          ⟨fun _ => InviteResp.ok, fun _ => true⟩⟩
        ⟨("m1"), ("g@x.com"), ("C1"), [("U1")], true⟩).1.status =
      ("Success") ∧
    (diffOf (fun u => if u = ("U1") then
        some ⟨("U1"), ("p@x.com"), false, false, false, false, false⟩
      else none) [] [("U1")]).2 ≠ [] := by
  refine ⟨?_, ?_, by decide⟩
  · decide
  · decide

/-- C6 amended: if the first run's mutations fully succeed — nothing is
skipped by a safety filter, no account is missing, every invite and kick
goes through — then the destination set after the run is
`(S - candidate_remove) ∪ to_add`, and a second run over it computes
`to_add = ∅` and `candidate_remove = ∅`. -/
theorem idempotent_after_full_apply (G S S2 : List String)
    (h : ∀ x, x ∈ S2 ↔
      (x ∈ setDiff S (setDiff S G) ∨ x ∈ setDiff G S)) :
    setDiff G S2 = [] ∧ setDiff S2 G = [] := by
  constructor
  · apply setDiff_eq_nil
    intro x hxG
    exact (h x).mpr ((mem_reconstruct G S x).mpr hxG)
  · apply setDiff_eq_nil
    intro x hxS2
    exact (mem_reconstruct G S x).mp ((h x).mp hxS2)

/-- C6 witness for the amended statement: with `G = {a}`, `S = {b}` and a
post-run destination `{a}`, the second run's diffs are empty. -/
theorem idempotent_after_full_apply_witness :
    setDiff [("a@x.com")] [("a@x.com")] = [] ∧
    setDiff [("a@x.com")] [("a@x.com")] = [] :=
  idempotent_after_full_apply [("a@x.com")] [("b@x.com")] [("a@x.com")]
    (by
      intro x
      have h1 : setDiff [("b@x.com")] [("a@x.com")] = [("b@x.com")] := by
        decide
      have h2 : setDiff [("b@x.com")] [("b@x.com")] = [] := by decide
      have h3 : setDiff [("a@x.com")] [("b@x.com")] = [("a@x.com")] := by
        decide
      rw [h3, h1, h2]
      simp)

end SyncAligner
